import Mathlib

set_option maxHeartbeats 1000000
set_option maxRecDepth 100000
set_option linter.unusedVariables false

namespace ValidateBranch

/-! Shallow embedding of the Validate-Branch VS Code extension
(`src/extension.js`).  The regular expressions hard-coded in the source are
embedded as terms of a small regex language with an executable matcher
(Brzozowski derivatives) and an inductive matching semantics, proved
equivalent, so that both concrete evaluation and universal reasoning about
the patterns are available. -/
/-- Syntax of the regular-expression fragment used by the patterns of the
extension: character classes, concatenation, alternation and Kleene star
(bounded repetition such as `.{1,80}` is encoded by unfolding). -/
inductive Regex where
  | emp  : Regex
  | eps  : Regex
  | cls  : (Char → Bool) → Regex
  | cat  : Regex → Regex → Regex
  | alt  : Regex → Regex → Regex
  | star : Regex → Regex

/-- Does the regex accept the empty string? -/
def nullable : Regex → Bool
  | .emp => false
  | .eps => true
  | .cls _ => false
  | .cat a b => nullable a && nullable b
  | .alt a b => nullable a || nullable b
  | .star _ => true

/-- Constructor test used by the smart constructors. -/
def isEmp : Regex → Bool
  | .emp => true
  | _ => false

/-- Constructor test used by the smart constructors. -/
def isEps : Regex → Bool
  | .eps => true
  | _ => false

/-- Smart alternation (keeps derivatives small). -/
def altS (a b : Regex) : Regex :=
  if isEmp a then b else if isEmp b then a else .alt a b

/-- Smart concatenation (keeps derivatives small). -/
def catS (a b : Regex) : Regex :=
  if isEmp a then .emp
  else if isEmp b then .emp
  else if isEps a then b
  else if isEps b then a
  else .cat a b

/-- Brzozowski derivative of a regex with respect to one character. -/
def deriv (r : Regex) (c : Char) : Regex :=
  match r with
  | .emp => .emp
  | .eps => .emp
  | .cls p => if p c then .eps else .emp
  | .cat a b =>
      altS (catS (deriv a c) b) (if nullable a then deriv b c else .emp)
  | .alt a b => altS (deriv a c) (deriv b c)
  | .star a => catS (deriv a c) (.star a)

/-- Executable matcher: full-string match via iterated derivatives. -/
def matchL : Regex → List Char → Bool
  | r, [] => nullable r
  | r, c :: s => matchL (deriv r c) s

/-- Semantics of `RegExp.test` for the fully anchored patterns of the extension
(`^...$` with no multiline flag): the whole subject must match the body. -/
def reTest (r : Regex) (s : String) : Bool :=
  matchL r s.data

/-- Inductive matching semantics.  The `starCons` rule forces a non-empty
first chunk, which leaves the recognised language unchanged and makes
inversion straightforward. -/
inductive RMatch : Regex → List Char → Prop where
  | eps : RMatch .eps []
  | cls {p : Char → Bool} {c : Char} : p c = true → RMatch (.cls p) [c]
  | cat {r₁ r₂ : Regex} {s₁ s₂ : List Char} :
      RMatch r₁ s₁ → RMatch r₂ s₂ → RMatch (.cat r₁ r₂) (s₁ ++ s₂)
  | altL {r₁ r₂ : Regex} {s : List Char} : RMatch r₁ s → RMatch (.alt r₁ r₂) s
  | altR {r₁ r₂ : Regex} {s : List Char} : RMatch r₂ s → RMatch (.alt r₁ r₂) s
  | starNil {r : Regex} : RMatch (.star r) []
  | starCons {r : Regex} {c : Char} {s₁ s₂ : List Char} :
      RMatch r (c :: s₁) → RMatch (.star r) s₂ →
      RMatch (.star r) (c :: (s₁ ++ s₂))

/-! The concrete patterns of `extension.js`, transcribed constructor by
constructor from the regex literals of the source. -/
/-- Class accepting a single literal character. -/
def chCls (c : Char) : Char → Bool := fun x => x == c

/-- Regex for a single literal character. -/
def chRe (c : Char) : Regex := .cls (chCls c)

/-- Regex for a literal word, one class per character. -/
def litRe : List Char → Regex
  | [] => .eps
  | c :: cs => .cat (chRe c) (litRe cs)

/-- One-or-more repetition (regex `+`). -/
def plusRe (r : Regex) : Regex := .cat r (.star r)

/-- Character class `[A-Z]`. -/
def upperCls : Char → Bool := fun c => decide ('A' ≤ c) && decide (c ≤ 'Z')

/-- Character class `[0-9]`. -/
def digitCls : Char → Bool := fun c => decide ('0' ≤ c) && decide (c ≤ '9')

/-- Character class `[a-z0-9-]`. -/
def lowHyCls : Char → Bool := fun c =>
  (decide ('a' ≤ c) && decide (c ≤ 'z')) ||
    (decide ('0' ≤ c) && decide (c ≤ '9')) || c == '-'

/-- JavaScript `.` — any character except a line terminator. -/
def dotCls : Char → Bool := fun c =>
  !(c == '\n' || c == '\r' || c == '\u2028' || c == '\u2029')

/-- Bounded repetition `r\x7b0,n\x7d`, by unfolding. -/
def upToRe (r : Regex) : Nat → Regex
  | 0 => .eps
  | n + 1 => .alt .eps (.cat r (upToRe r n))

/-- Regex `.\x7b1,80\x7d` from the jira commit pattern. -/
def dot1to80 : Regex := .cat (.cls dotCls) (upToRe (.cls dotCls) 79)

/-- Pattern `BRANCH_PATTERNS.jira` (extension.js line 12):
`^(feature|bugfix|hotfix|release|chore)\/[A-Z]+-[0-9]+-[a-z0-9-]+$`. -/
def jiraBranchRe : Regex :=
  .cat (.alt (litRe "feature".data)
    (.alt (litRe "bugfix".data)
      (.alt (litRe "hotfix".data)
        (.alt (litRe "release".data) (litRe "chore".data)))))
  (.cat (chRe '/')
    (.cat (plusRe (.cls upperCls))
      (.cat (chRe '-')
        (.cat (plusRe (.cls digitCls))
          (.cat (chRe '-') (plusRe (.cls lowHyCls)))))))

/-- Pattern `COMMIT_PATTERNS.jira` (extension.js line 17):
`^\[[A-Z]+-[0-9]+\] (feat|fix|docs|style|refactor|test|chore)\([a-z0-9-]+\): .\x7b1,80\x7d$`. -/
def jiraCommitRe : Regex :=
  .cat (chRe '[')
  (.cat (plusRe (.cls upperCls))
  (.cat (chRe '-')
  (.cat (plusRe (.cls digitCls))
  (.cat (chRe ']')
  (.cat (chRe ' ')
  (.cat (.alt (litRe "feat".data)
    (.alt (litRe "fix".data)
      (.alt (litRe "docs".data)
        (.alt (litRe "style".data)
          (.alt (litRe "refactor".data)
            (.alt (litRe "test".data) (litRe "chore".data)))))))
  (.cat (chRe '(')
  (.cat (plusRe (.cls lowHyCls))
  (.cat (chRe ')')
  (.cat (chRe ':')
  (.cat (chRe ' ') dot1to80)))))))))))

/-- Registry `BRANCH_PATTERNS` (extension.js lines 11-13): jira only. -/
def BRANCH_PATTERNS : List (String × Regex) := [("jira", jiraBranchRe)]

/-- Registry `COMMIT_PATTERNS` (extension.js lines 16-18): jira only. -/
def COMMIT_PATTERNS : List (String × Regex) := [("jira", jiraCommitRe)]

/-- Extension configuration (the value shape produced by `getConfig` /
`getHookConfig`, extension.js lines 49-97). -/
structure Config where
  branchPattern : String
  commitPattern : String
  enableBranchValidation : Bool
  enableCommitValidation : Bool
  customBranchPattern : String
  customCommitPattern : String

/-- The per-key defaults of `getConfig` and `getHookConfig`. -/
def defaultConfig : Config :=
  ⟨"jira", "jira", true, true, "", ""⟩

/-- Outcome of an in-process validation call: the boolean result plus
whether `showErrorMessage` was invoked (the ConfigurationError report). -/
structure VResult where
  ok : Bool
  errorNotified : Bool
deriving DecidableEq

/-- Function `validateBranchName` (extension.js lines 178-198).  JavaScript
`new RegExp` compilation of the user-supplied custom pattern is abstracted
by the `compile` oracle: `none` models a pattern whose compilation throws,
`some f` a compiled regex with test function `f`.  The truthiness test
`config.customBranchPattern` is nonemptiness of the string.  This total
model covers identifiers that are not Object.prototype member names; for
those, see `validateBranchNameJs` below, which models the TypeError the
code then throws. -/
def validateBranchName (compile : String → Option (String → Bool))
    (config : Config) (branchName : String) (pattern : String) : VResult :=
  if pattern = "custom" ∧ config.customBranchPattern ≠ "" then
    match compile config.customBranchPattern with
    | some regex => ⟨regex branchName, false⟩
    | none => ⟨false, true⟩
  else
    match BRANCH_PATTERNS.lookup pattern with
    | some regex => ⟨reTest regex branchName, false⟩
    | none => ⟨false, false⟩

/-- Function `validateCommitMessage` (extension.js lines 203-223), analogous. -/
def validateCommitMessage (compile : String → Option (String → Bool))
    (config : Config) (message : String) (pattern : String) : VResult :=
  if pattern = "custom" ∧ config.customCommitPattern ≠ "" then
    match compile config.customCommitPattern with
    | some regex => ⟨regex message, false⟩
    | none => ⟨false, true⟩
  else
    match COMMIT_PATTERNS.lookup pattern with
    | some regex => ⟨reTest regex message, false⟩
    | none => ⟨false, false⟩

/-- The jira branch example list (extension.js lines 230-236, identical to
the list at line 112). -/
def jiraBranchExamples : List String :=
  ["feature/APC-2876-user-auth", "bugfix/APC-1234-login-fix",
   "hotfix/APC-5678-security-patch", "release/APC-9999-v2-release",
   "chore/APC-1111-update-deps"]

/-- The jira commit example list (extension.js lines 246-251, identical to
the list at line 150). -/
def jiraCommitExamples : List String :=
  ["[APC-2356] feat(auth): Add Login Functionality",
   "[APC-1234] fix(ui): Resolve button alignment issue",
   "[APC-5678] docs(readme): Update installation guide",
   "[APC-9999] refactor(api): Simplify user service"]

/-- Function `getBranchExamples` (extension.js lines 228-239):
`examples[pattern] || examples.jira`. -/
def getBranchExamples (pattern : String) : List String :=
  ((([("jira", jiraBranchExamples)] : List (String × List String)).lookup
    pattern).getD jiraBranchExamples)

/-- Function `getCommitExamples` (extension.js lines 244-254). -/
def getCommitExamples (pattern : String) : List String :=
  ((([("jira", jiraCommitExamples)] : List (String × List String)).lookup
    pattern).getD jiraCommitExamples)

/-- Every match of `r` is nonempty and starts with a character satisfying
`q`. -/
def FirstP (q : Char → Bool) (r : Regex) : Prop :=
  ∀ s, RMatch r s → ∃ c t, s = c :: t ∧ q c = true

/-- Every match of `r` is nonempty and ends with a character satisfying
`p`. -/
def LastP (p : Char → Bool) (r : Regex) : Prop :=
  ∀ s, RMatch r s → ∃ t c, s = t ++ [c] ∧ p c = true

/-! The hook-script synthesizer (`generateBranchValidationScript`,
`generateCommitValidationScript`) and the four rendered hook files of
`installGitHooks`, transcribed from the template literals of the source.
JavaScript escapes are rendered (`\\[` is `\[`, `\/` is `/`); the garbled
byte sequences such as the one before "Branch name" reproduce the bytes of the
source file. -/
/-- The jira pattern string inside `generateBranchValidationScript`
(extension.js line 104). -/
def jiraBranchPatternStr : String :=
  "^(feature|bugfix|hotfix|release|chore)/[A-Z]+-[0-9]+-[a-z0-9-]+$"

/-- The jira pattern string inside `generateCommitValidationScript`
(extension.js line 142). -/
def jiraCommitPatternStr : String :=
  "^\\[[A-Z]+-[0-9]+\\] (feat|fix|docs|style|refactor|test|chore)\\([a-z0-9-]+\\): .\x7b1,80\x7d$"

/-- The `patterns` table of `generateBranchValidationScript` (line 103). -/
def branchScriptPatterns : List (String × String) :=
  [("jira", jiraBranchPatternStr)]

/-- The `patterns` table of `generateCommitValidationScript` (line 141). -/
def commitScriptPatterns : List (String × String) :=
  [("jira", jiraCommitPatternStr)]

/-- Pattern choice of `generateBranchValidationScript` (lines 107-109):
the custom pattern verbatim when `branchPattern` is "custom" and the custom
text is truthy (nonempty), else table lookup with jira fallback.  Faithful
for identifiers that are not Object.prototype member names; see
`chosenBranchPatternJs` for the inherited-key behaviour. -/
def chosenBranchPattern (config : Config) : String :=
  if config.branchPattern = "custom" ∧ config.customBranchPattern ≠ "" then
    config.customBranchPattern
  else
    (branchScriptPatterns.lookup config.branchPattern).getD
      jiraBranchPatternStr

/-- Pattern choice of `generateCommitValidationScript` (lines 145-147). -/
def chosenCommitPattern (config : Config) : String :=
  if config.commitPattern = "custom" ∧ config.customCommitPattern ≠ "" then
    config.customCommitPattern
  else
    (commitScriptPatterns.lookup config.commitPattern).getD
      jiraCommitPatternStr

/-- Example choice of `generateBranchValidationScript` (lines 115-117).
Faithful for identifiers that are not Object.prototype member names; see
`chosenBranchExamplesJs` for the inherited-key behaviour. -/
def chosenBranchExamples (config : Config) : List String :=
  if config.branchPattern = "custom" then ["custom-pattern-example"]
  else
    (([("jira", jiraBranchExamples)] : List (String × List String)).lookup
      config.branchPattern).getD jiraBranchExamples

/-- Example choice of `generateCommitValidationScript` (lines 153-155). -/
def chosenCommitExamples (config : Config) : List String :=
  if config.commitPattern = "custom" then ["custom-pattern-example"]
  else
    (([("jira", jiraCommitExamples)] : List (String × List String)).lookup
      config.commitPattern).getD jiraCommitExamples

/-- Function `generateBranchValidationScript` (extension.js lines 102-135): the
rendered shell function text, with the chosen pattern, the configured
convention name and the example list interpolated verbatim. -/
def generateBranchValidationScript (config : Config) : String :=
  "\nvalidate_branch_name() \x7b\n    local branch_name=\"$1\"\n    local pattern=\"" ++
  chosenBranchPattern config ++
  "\"\n    \n    if ! echo \"$branch_name\" | grep -qE \"$pattern\"; then\n        echo \"‚ùå Branch name \x27$branch_name\x27 doesn\x27t follow the " ++
  config.branchPattern ++
  " convention.\"\n        echo \"\"\n        echo \"Examples:\"\n        " ++
  String.intercalate "\n        "
    ((chosenBranchExamples config).map (fun ex => "echo \"  " ++ ex ++ "\"")) ++
  "\n        echo \"\"\n        echo \"Current pattern: $pattern\"\n        return 1\n    fi\n    return 0\n\x7d"

/-- Function `generateCommitValidationScript` (extension.js lines 140-173). -/
def generateCommitValidationScript (config : Config) : String :=
  "\nvalidate_commit_message() \x7b\n    local commit_message=\"$1\"\n    local pattern=\"" ++
  chosenCommitPattern config ++
  "\"\n    \n    if ! echo \"$commit_message\" | grep -qE \"$pattern\"; then\n        echo \"‚ùå Commit message doesn\x27t follow the " ++
  config.commitPattern ++
  " convention.\"\n        echo \"\"\n        echo \"Examples:\"\n        " ++
  String.intercalate "\n        "
    ((chosenCommitExamples config).map (fun ex => "echo \"  " ++ ex ++ "\"")) ++
  "\n        echo \"\"\n        echo \"Current pattern: $pattern\"\n        return 1\n    fi\n    return 0\n\x7d"

/-- JavaScript `String.includes`: contiguous-substring test. -/
def includes (hay needle : String) : Bool :=
  decide (needle.data <:+: hay.data)

/-- POSIX double-quoted-string scanner: the literal content up to the first
unescaped closing quote, together with the remaining (unquoted) text, or
`none` when the quote is never closed.  Inside double quotes a backslash
escapes `"` and `\`. -/
def dqScan : List Char → Option (List Char × List Char)
  | [] => none
  | '"' :: rest => some ([], rest)
  | '\\' :: '"' :: rest => (dqScan rest).map (fun p => ('"' :: p.1, p.2))
  | '\\' :: '\\' :: rest => (dqScan rest).map (fun p => ('\\' :: p.1, p.2))
  | c :: rest => (dqScan rest).map (fun p => (c :: p.1, p.2))

/-- Text is safe to splice between shell double quotes iff the scanner
recovers it unchanged, consuming exactly the closing quote: the shell then
treats is as opaque data of that one literal. -/
def shellDQSafe (p : String) : Bool :=
  dqScan (p.data ++ ['"']) == some (p.data, [])

/-- The four conventional hook files managed by the extension. -/
inductive HookKind where
  | preCommit
  | commitMsg
  | postCheckout
  | prePush
deriving DecidableEq

/-- State of the hooks directory: per hook file, its content, or `none`
when the file does not exist. -/
def HookFS := HookKind → Option String

/-- The signature marker (extension.js lines 302 and 494). -/
def extensionSignature : String := "# VS Code Validate Branch Extension"

/-- Function `removeGitHooks` (extension.js lines 293-322): each of the four files
is deleted exactly when it exists and its content contains the signature
marker; anything else is left untouched. -/
def removeGitHooks (fs : HookFS) : HookFS := fun k =>
  match fs k with
  | none => none
  | some content =>
      if includes content extensionSignature then none else some content

/-- JavaScript template interpolation of a boolean. -/
def boolStr (b : Bool) : String := if b then "true" else "false"

/-- Rendered pre-commit hook (`preCommitContent`, extension.js
lines 337-357). -/
def preCommitContent (config : Config) : String :=
  "#!/bin/sh\n# VS Code Validate Branch Extension - Pre-commit hook\n# This hook validates the current branch name before allowing commits\n\n" ++
  ((if config.enableBranchValidation then generateBranchValidationScript config else "") ++
   "\n\nif [ \"" ++ boolStr config.enableBranchValidation ++ "\" = \"true\" ]; then\n    current_branch=$(git branch --show-current 2>/dev/null || git rev-parse --abbrev-ref HEAD 2>/dev/null)\n    \n    if [ -n \"$current_branch\" ] && [ \"$current_branch\" != \"HEAD\" ]; then\n        if ! validate_branch_name \"$current_branch\"; then\n            echo \"\"\n            echo \"üí° Tip: Use \x27Validate Branch: Create New Branch\x27 command in VS Code for guided branch creation.\"\n            echo \"üí° Or rename this branch: git branch -m <new-valid-name>\"\n            exit 1\n        fi\n    fi\nfi\n\necho \"‚úÖ Branch name validation passed\"\n")

/-- Rendered commit-msg hook (`commitMsgContent`, lines 360-377). -/
def commitMsgContent (config : Config) : String :=
  "#!/bin/sh\n# VS Code Validate Branch Extension - Commit message hook\n# This hook validates commit messages\n\n" ++
  ((if config.enableCommitValidation then generateCommitValidationScript config else "") ++
   "\n\nif [ \"" ++ boolStr config.enableCommitValidation ++ "\" = \"true\" ]; then\n    commit_message=$(cat \"$1\")\n    \n    if ! validate_commit_message \"$commit_message\"; then\n        echo \"\"\n        echo \"üí° Tip: Use \x27Validate Branch: Create Commit\x27 command in VS Code for guided commit creation.\"\n        exit 1\n    fi\nfi\n\necho \"‚úÖ Commit message validation passed\"\n")

/-- Rendered pre-push hook (`prePushContent`, lines 380-406; the JS escape
sequence backslash-slash in the sed command renders as a plain slash). -/
def prePushContent (config : Config) : String :=
  "#!/bin/sh\n# VS Code Validate Branch Extension - Pre-push hook\n# This hook validates branch names before they are pushed to remote\n\n" ++
  ((if config.enableBranchValidation then generateBranchValidationScript config else "") ++
   "\n\nif [ \"" ++ boolStr config.enableBranchValidation ++ "\" = \"true\" ]; then\n    # Read from stdin: local_ref local_sha remote_ref remote_sha\n    while read local_ref local_sha remote_ref remote_sha; do\n        # Extract branch name from ref\n        if [ \"$local_ref\" != \"(delete)\" ]; then\n            branch_name=$(echo \"$local_ref\" | sed \x27s/refs/heads///\x27)\n            \n            if [ -n \"$branch_name\" ]; then\n                if ! validate_branch_name \"$branch_name\"; then\n                    echo \"\"\n                    echo \"üí° Tip: Rename your branch before pushing: git branch -m <new-valid-name>\"\n                    echo \"üí° Or use \x27Validate Branch: Create New Branch\x27 command in VS Code for guided branch creation.\"\n                    exit 1\n                fi\n            fi\n        fi\n    done\nfi\n\necho \"‚úÖ Branch name validation passed for push\"\n")

/-- Rendered post-checkout hook (`postCheckoutContent`, lines 409-437). -/
def postCheckoutContent (config : Config) : String :=
  "#!/bin/sh\n# VS Code Validate Branch Extension - Post-checkout hook\n# This hook warns about invalid branch names after checkout or branch creation\n\n" ++
  ((if config.enableBranchValidation then generateBranchValidationScript config else "") ++
   "\n\n# Arguments: previous_head new_head branch_flag\nprevious_head=$1\nnew_head=$2\nbranch_flag=$3\n\n# Only validate if this is a branch checkout (branch_flag = 1)\nif [ \"$branch_flag\" = \"1\" ] && [ \"" ++ boolStr config.enableBranchValidation ++ "\" = \"true\" ]; then\n    current_branch=$(git branch --show-current 2>/dev/null || git rev-parse --abbrev-ref HEAD 2>/dev/null)\n    \n    if [ -n \"$current_branch\" ] && [ \"$current_branch\" != \"HEAD\" ]; then\n        if ! validate_branch_name \"$current_branch\"; then\n            echo \"\"\n            echo \"‚ö†Ô∏è  WARNING: Branch name \x27$current_branch\x27 doesn\x27t follow naming conventions!\"\n            echo \"üí° This branch will be blocked from commits and pushes until renamed.\"\n            echo \"üí° To rename: git branch -m <new-valid-name>\"\n            echo \"üí° Or use \x27Validate Branch: Create New Branch\x27 command in VS Code for guided branch creation.\"\n            echo \"\"\n        else\n            echo \"‚úÖ Branch name follows " ++ config.branchPattern ++ " convention\"\n        fi\n    fi\nfi\n")

/-- Filesystem effect of `installGitHooks` (lines 439-448): all four hook
files are written unconditionally, overwriting whatever was there. -/
def installGitHooks (config : Config) (fs : HookFS) : HookFS := fun k =>
  match k with
  | .preCommit => some (preCommitContent config)
  | .commitMsg => some (commitMsgContent config)
  | .postCheckout => some (postCheckoutContent config)
  | .prePush => some (prePushContent config)

/-- Hook-presence detection inside `updateStatusBar` (lines 491-504): read
only the pre-commit file and check it for the signature marker. -/
def hooksInstalled (fs : HookFS) : Bool :=
  match fs .preCommit with
  | some content => includes content extensionSignature
  | none => false

/-- Overwriting one hook file (models a manual edit by the user). -/
def writeHook (fs : HookFS) (k : HookKind) (content : String) : HookFS :=
  fun j => if j = k then some content else fs j

/-- The empty hooks directory. -/
def emptyFS : HookFS := fun _ => none

/-- The extension-owned state that `deactivate` touches. -/
structure ExtensionState where
  statusBarItem : Option Unit
  workspaceFolders : List HookFS

/-- Function `deactivate` (extension.js lines 680-702): dispose the status bar item
and run `removeGitHooks` on every open workspace folder. -/
def deactivate (st : ExtensionState) : ExtensionState :=
  { statusBarItem := none
    workspaceFolders := st.workspaceFolders.map removeGitHooks }

/-- Prepends a character to the first chunk of a chunk list. -/
def consHead (c : Char) : List (List Char) → List (List Char)
  | [] => [[c]]
  | l :: ls => (c :: l) :: ls

/-- Scanner splitting one shell line into its top-level chunks at unquoted
semicolons, tracking double-quote state; inside double quotes a backslash
escapes the following character.  Returns `none` when the line ends inside
an open double quote (the shell would then consume subsequent script
lines, which this model does not cover); single quotes are not modelled
(none of the lines considered here contain one). -/
def shSplitAux : Bool → List Char → Option (List (List Char))
  | false, [] => some [[]]
  | true, [] => none
  | false, c :: rest =>
      if c = ';' then (shSplitAux false rest).map (fun ls => [] :: ls)
      else if c = '"' then (shSplitAux true rest).map (consHead c)
      else (shSplitAux false rest).map (consHead c)
  | true, c :: rest =>
      if c = '"' then (shSplitAux false rest).map (consHead c)
      else if c = '\\' then
        match rest with
        | [] => none
        | d :: rest' =>
            (shSplitAux true rest').map (fun ls => consHead c (consHead d ls))
      else (shSplitAux true rest).map (consHead c)

/-- Top-level simple commands of one rendered shell line (text kept
verbatim, quotes included). -/
def shellLineCommands (line : String) : Option (List String) :=
  (shSplitAux false line.data).map (fun ls => ls.map String.mk)

/-- The assignment line of the rendered validate_branch_name function into
which the chosen pattern is interpolated (template line 122). -/
def patternAssignmentLine (config : Config) : String :=
  "local pattern=\"" ++ chosenBranchPattern config ++ "\""

/-- The property names an object literal inherits from Object.prototype
(reachable through a bracket read with a string key). -/
def objectPrototypeKeys : List String :=
  ["constructor", "hasOwnProperty", "isPrototypeOf", "propertyIsEnumerable",
   "toLocaleString", "toString", "valueOf", "__defineGetter__",
   "__defineSetter__", "__lookupGetter__", "__lookupSetter__", "__proto__"]

/-- Function `validateBranchName` with the JavaScript property-read made
explicit: at an Object.prototype member name the lookup yields a truthy
inherited function, the `!regex` guard does not fire, and `regex.test`
throws a TypeError that escapes the function (modelled as `none`);
elsewhere the behaviour is that of `validateBranchName`. -/
def validateBranchNameJs (compile : String → Option (String → Bool))
    (config : Config) (branchName : String) (pattern : String) :
    Option VResult :=
  if pattern = "custom" ∧ config.customBranchPattern ≠ "" then
    some (match compile config.customBranchPattern with
          | some regex => ⟨regex branchName, false⟩
          | none => ⟨false, true⟩)
  else
    match BRANCH_PATTERNS.lookup pattern with
    | some regex => some ⟨reTest regex branchName, false⟩
    | none =>
        if pattern ∈ objectPrototypeKeys then none
        else some ⟨false, false⟩

/-- Pattern selection of the branch-script generator with the JavaScript
property-read made explicit: at an Object.prototype member name the truthy
inherited function is selected by `patterns[...] || patterns.jira`, so no
pattern STRING results (modelled as `none` — the renderer would stringify
the function, and in any case throws at the example step before rendering
anything); elsewhere the behaviour is that of `chosenBranchPattern`. -/
def chosenBranchPatternJs (config : Config) : Option String :=
  if config.branchPattern = "custom" ∧ config.customBranchPattern ≠ "" then
    some config.customBranchPattern
  else
    match branchScriptPatterns.lookup config.branchPattern with
    | some p => some p
    | none =>
        if config.branchPattern ∈ objectPrototypeKeys then none
        else some jiraBranchPatternStr

/-- Example selection of the branch-script generator with the JavaScript
property-read made explicit: at an Object.prototype member name
`examples[...] || examples.jira` selects the truthy inherited function, on
which the subsequent `.map` throws (modelled as `none`). -/
def chosenBranchExamplesJs (config : Config) : Option (List String) :=
  if config.branchPattern = "custom" then some ["custom-pattern-example"]
  else
    match (([("jira", jiraBranchExamples)] : List (String × List String)).lookup
      config.branchPattern) with
    | some es => some es
    | none =>
        if config.branchPattern ∈ objectPrototypeKeys then none
        else some jiraBranchExamples

/-- Branch-script generator with the JavaScript property-read made
explicit: it renders a script exactly when both the pattern and the
example selection produce data; at an Object.prototype member name the
example step throws before any script text exists. -/
def generateBranchValidationScriptJs (config : Config) : Option String :=
  match chosenBranchPatternJs config, chosenBranchExamplesJs config with
  | some _, some _ => some (generateBranchValidationScript config)
  | _, _ => none

/-- Configuration carrying a malicious custom branch pattern: the value of
`validateBranch.customBranchPattern` contains an unescaped double quote
followed by a shell command. -/
def injCfg : Config :=
  { branchPattern := "custom"
    commitPattern := "jira"
    enableBranchValidation := true
    enableCommitValidation := true
    customBranchPattern := "x\"; touch pwned; echo \""
    customCommitPattern := "" }

/-- Configuration whose branch convention id is unknown to the registry
(the README advertises "gitflow" but the code only knows "jira"). -/
def gitflowCfg : Config :=
  { branchPattern := "gitflow"
    commitPattern := "angular"
    enableBranchValidation := true
    enableCommitValidation := true
    customBranchPattern := ""
    customCommitPattern := "" }

/-- Configuration selecting the custom convention while leaving the custom
pattern text empty. -/
def emptyCustomCfg : Config :=
  { branchPattern := "custom"
    commitPattern := "jira"
    enableBranchValidation := true
    enableCommitValidation := true
    customBranchPattern := ""
    customCommitPattern := "" }

/-- Configuration whose custom pattern texts are nonempty but fail to
compile as regular expressions. -/
def badCustomCfg : Config :=
  { branchPattern := "custom"
    commitPattern := "custom"
    enableBranchValidation := true
    enableCommitValidation := true
    customBranchPattern := "("
    customCommitPattern := "(" }

/-- Configuration whose branch convention id names an Object.prototype
member. -/
def toStringCfg : Config :=
  { branchPattern := "toString"
    commitPattern := "jira"
    enableBranchValidation := true
    enableCommitValidation := true
    customBranchPattern := ""
    customCommitPattern := "" }

theorem rmatch_emp_iff {s : List Char} : RMatch .emp s ↔ False := by
  constructor
  · intro h; cases h
  · intro h; exact h.elim

theorem rmatch_eps_iff {s : List Char} : RMatch .eps s ↔ s = [] := by
  constructor
  · intro h; cases h; rfl
  · intro h; subst h; exact .eps

theorem rmatch_cls_iff {p : Char → Bool} {s : List Char} :
    RMatch (.cls p) s ↔ ∃ c, s = [c] ∧ p c = true := by
  constructor
  · intro h; cases h with
    | cls hc => exact ⟨_, rfl, hc⟩
  · rintro ⟨c, rfl, hc⟩; exact .cls hc

theorem rmatch_cat_iff {a b : Regex} {s : List Char} :
    RMatch (.cat a b) s ↔
      ∃ s₁ s₂, s = s₁ ++ s₂ ∧ RMatch a s₁ ∧ RMatch b s₂ := by
  constructor
  · intro h; cases h with
    | cat h₁ h₂ => exact ⟨_, _, rfl, h₁, h₂⟩
  · rintro ⟨s₁, s₂, rfl, h₁, h₂⟩; exact .cat h₁ h₂

theorem rmatch_alt_iff {a b : Regex} {s : List Char} :
    RMatch (.alt a b) s ↔ RMatch a s ∨ RMatch b s := by
  constructor
  · intro h; cases h with
    | altL h => exact Or.inl h
    | altR h => exact Or.inr h
  · rintro (h | h)
    · exact .altL h
    · exact .altR h

theorem rmatch_star_cons_iff {r : Regex} {c : Char} {s : List Char} :
    RMatch (.star r) (c :: s) ↔
      ∃ s₁ s₂, s = s₁ ++ s₂ ∧ RMatch r (c :: s₁) ∧ RMatch (.star r) s₂ := by
  constructor
  · intro h; cases h with
    | starCons h₁ h₂ => exact ⟨_, _, rfl, h₁, h₂⟩
  · rintro ⟨s₁, s₂, rfl, h₁, h₂⟩; exact .starCons h₁ h₂

theorem nullable_iff {r : Regex} : nullable r = true ↔ RMatch r [] := by
  induction r with
  | emp => simp [nullable, rmatch_emp_iff]
  | eps => simp [nullable, rmatch_eps_iff]
  | cls p => simp [nullable, rmatch_cls_iff]
  | cat a b iha ihb =>
      simp only [nullable, Bool.and_eq_true, iha, ihb, rmatch_cat_iff]
      constructor
      · rintro ⟨h₁, h₂⟩; exact ⟨[], [], rfl, h₁, h₂⟩
      · rintro ⟨s₁, s₂, hs, h₁, h₂⟩
        rcases List.append_eq_nil.mp hs.symm with ⟨rfl, rfl⟩
        exact ⟨h₁, h₂⟩
  | alt a b iha ihb =>
      simp [nullable, iha, ihb, rmatch_alt_iff]
  | star a _ =>
      simp only [nullable, true_iff]
      exact .starNil

theorem isEmp_eq {a : Regex} (h : isEmp a = true) : a = .emp := by
  cases a <;> simp [isEmp] at h ⊢

theorem isEps_eq {a : Regex} (h : isEps a = true) : a = .eps := by
  cases a <;> simp [isEps] at h ⊢

theorem rmatch_altS {a b : Regex} {s : List Char} :
    RMatch (altS a b) s ↔ RMatch (.alt a b) s := by
  cases a <;> cases b <;>
    simp [altS, isEmp, rmatch_alt_iff, rmatch_emp_iff]

theorem rmatch_cat_emp_left {b : Regex} {s : List Char} :
    RMatch (.cat .emp b) s ↔ False := by
  rw [rmatch_cat_iff]
  constructor
  · rintro ⟨s₁, s₂, rfl, h₁, h₂⟩
    exact rmatch_emp_iff.mp h₁
  · exact False.elim

theorem rmatch_cat_emp_right {a : Regex} {s : List Char} :
    RMatch (.cat a .emp) s ↔ False := by
  rw [rmatch_cat_iff]
  constructor
  · rintro ⟨s₁, s₂, rfl, h₁, h₂⟩
    exact rmatch_emp_iff.mp h₂
  · exact False.elim

theorem rmatch_cat_eps_left {b : Regex} {s : List Char} :
    RMatch (.cat .eps b) s ↔ RMatch b s := by
  rw [rmatch_cat_iff]
  constructor
  · rintro ⟨s₁, s₂, rfl, h₁, h₂⟩
    rw [rmatch_eps_iff] at h₁
    subst h₁
    exact h₂
  · intro h
    exact ⟨[], s, rfl, rmatch_eps_iff.mpr rfl, h⟩

theorem rmatch_cat_eps_right {a : Regex} {s : List Char} :
    RMatch (.cat a .eps) s ↔ RMatch a s := by
  rw [rmatch_cat_iff]
  constructor
  · rintro ⟨s₁, s₂, rfl, h₁, h₂⟩
    rw [rmatch_eps_iff] at h₂
    subst h₂
    rw [List.append_nil]
    exact h₁
  · intro h
    exact ⟨s, [], (List.append_nil s).symm, h, rmatch_eps_iff.mpr rfl⟩

theorem rmatch_catS {a b : Regex} {s : List Char} :
    RMatch (catS a b) s ↔ RMatch (.cat a b) s := by
  cases a <;> cases b <;>
    simp [catS, isEmp, isEps, rmatch_cat_emp_left, rmatch_cat_emp_right,
      rmatch_cat_eps_left, rmatch_cat_eps_right, rmatch_emp_iff]

theorem deriv_iff {r : Regex} {c : Char} {s : List Char} :
    RMatch (deriv r c) s ↔ RMatch r (c :: s) := by
  induction r generalizing s with
  | emp => simp [deriv, rmatch_emp_iff]
  | eps =>
      simp [deriv, rmatch_emp_iff, rmatch_eps_iff]
  | cls p =>
      constructor
      · intro hm
        unfold deriv at hm
        by_cases h : p c
        · rw [if_pos h, rmatch_eps_iff] at hm
          subst hm
          exact .cls h
        · rw [if_neg h, rmatch_emp_iff] at hm
          exact hm.elim
      · intro hm
        rcases rmatch_cls_iff.mp hm with ⟨d, hd, hp⟩
        injection hd with h₁ h₂
        subst h₁
        subst h₂
        unfold deriv
        rw [if_pos hp, rmatch_eps_iff]
  | cat a b iha ihb =>
      simp only [deriv, rmatch_altS, rmatch_alt_iff, rmatch_catS,
        rmatch_cat_iff]
      by_cases hn : nullable a
      · rw [if_pos hn]
        constructor
        · rintro (⟨s₁, s₂, rfl, h₁, h₂⟩ | h₂)
          · exact ⟨c :: s₁, s₂, rfl, iha.mp h₁, h₂⟩
          · exact ⟨[], c :: s, rfl, nullable_iff.mp hn, ihb.mp h₂⟩
        · rintro ⟨s₁, s₂, heq, h₁, h₂⟩
          cases s₁ with
          | nil =>
              right
              simp only [List.nil_append] at heq
              exact ihb.mpr (heq ▸ h₂)
          | cons x t =>
              left
              simp only [List.cons_append, List.cons.injEq] at heq
              obtain ⟨rfl, rfl⟩ := heq
              exact ⟨t, s₂, rfl, iha.mpr h₁, h₂⟩
      · rw [if_neg hn]
        simp only [rmatch_emp_iff, or_false]
        constructor
        · rintro ⟨s₁, s₂, rfl, h₁, h₂⟩
          exact ⟨c :: s₁, s₂, rfl, iha.mp h₁, h₂⟩
        · rintro ⟨s₁, s₂, heq, h₁, h₂⟩
          cases s₁ with
          | nil =>
              exact absurd (nullable_iff.mpr h₁) hn
          | cons x t =>
              simp only [List.cons_append, List.cons.injEq] at heq
              obtain ⟨rfl, rfl⟩ := heq
              exact ⟨t, s₂, rfl, iha.mpr h₁, h₂⟩
  | alt a b iha ihb =>
      simp [deriv, rmatch_altS, rmatch_alt_iff, iha, ihb]
  | star a iha =>
      simp only [deriv, rmatch_catS, rmatch_cat_iff]
      constructor
      · rintro ⟨s₁, s₂, rfl, h₁, h₂⟩
        exact .starCons (iha.mp h₁) h₂
      · intro h
        rcases rmatch_star_cons_iff.mp h with ⟨s₁, s₂, rfl, h₁, h₂⟩
        exact ⟨s₁, s₂, rfl, iha.mpr h₁, h₂⟩

theorem matchL_iff {r : Regex} {s : List Char} :
    matchL r s = true ↔ RMatch r s := by
  induction s generalizing r with
  | nil => simpa [matchL] using nullable_iff
  | cons c s ih => simp [matchL, ih, deriv_iff]

theorem reTest_iff {r : Regex} {s : String} :
    reTest r s = true ↔ RMatch r s.data :=
  matchL_iff

/-! Structural facts about the two jira patterns: what the first and last
character of any match must look like.  These drive the whitespace
claims. -/
theorem rmatch_litRe {l s : List Char} : RMatch (litRe l) s ↔ s = l := by
  induction l generalizing s with
  | nil => simp [litRe, rmatch_eps_iff]
  | cons c cs ih =>
      constructor
      · intro h
        rcases rmatch_cat_iff.mp h with ⟨s₁, s₂, rfl, h₁, h₂⟩
        rcases rmatch_cls_iff.mp h₁ with ⟨d, rfl, hd⟩
        rw [ih] at h₂
        subst h₂
        simp only [chCls, beq_iff_eq] at hd
        subst hd
        rfl
      · rintro rfl
        exact rmatch_cat_iff.mpr
          ⟨[c], cs, rfl, rmatch_cls_iff.mpr ⟨c, rfl, by simp [chCls]⟩,
            ih.mpr rfl⟩

theorem firstP_cat {q : Char → Bool} {a b : Regex} (ha : FirstP q a) :
    FirstP q (.cat a b) := by
  intro s h
  rcases rmatch_cat_iff.mp h with ⟨s₁, s₂, rfl, h₁, h₂⟩
  rcases ha s₁ h₁ with ⟨c, t, rfl, hc⟩
  exact ⟨c, t ++ s₂, rfl, hc⟩

theorem firstP_alt {q : Char → Bool} {a b : Regex} (ha : FirstP q a)
    (hb : FirstP q b) : FirstP q (.alt a b) := by
  intro s h
  rcases rmatch_alt_iff.mp h with h | h
  · exact ha s h
  · exact hb s h

theorem firstP_cls {q p : Char → Bool} (h : ∀ c, p c = true → q c = true) :
    FirstP q (.cls p) := by
  intro s hm
  rcases rmatch_cls_iff.mp hm with ⟨c, rfl, hc⟩
  exact ⟨c, [], rfl, h c hc⟩

theorem firstP_litRe {q : Char → Bool} {c : Char} {cs : List Char}
    (h : q c = true) : FirstP q (litRe (c :: cs)) := by
  intro s hm
  rw [rmatch_litRe] at hm
  subst hm
  exact ⟨c, cs, rfl, h⟩

theorem lastP_cat {p : Char → Bool} {a b : Regex} (hb : LastP p b) :
    LastP p (.cat a b) := by
  intro s h
  rcases rmatch_cat_iff.mp h with ⟨s₁, s₂, rfl, _, h₂⟩
  rcases hb s₂ h₂ with ⟨t, c, rfl, hc⟩
  exact ⟨s₁ ++ t, c, by rw [List.append_assoc], hc⟩

theorem star_cls_last {p : Char → Bool} {r : Regex} {s : List Char}
    (h : RMatch r s) :
    r = .star (.cls p) → s ≠ [] → ∃ t c, s = t ++ [c] ∧ p c = true := by
  induction h with
  | eps => intro heq; simp at heq
  | cls _ => intro heq; simp at heq
  | cat _ _ _ _ => intro heq; simp at heq
  | altL _ _ => intro heq; simp at heq
  | altR _ _ => intro heq; simp at heq
  | starNil =>
      intro _ hne
      exact absurd rfl hne
  | @starCons r' c' s₁ s₂ h₁ h₂ ih₁ ih₂ =>
      intro heq _
      injection heq with heq'
      subst heq'
      rcases rmatch_cls_iff.mp h₁ with ⟨d, hd, hdp⟩
      injection hd with hd₁ hd₂
      subst hd₁
      subst hd₂
      cases hs₂ : s₂ with
      | nil =>
          subst hs₂
          exact ⟨[], c', by simp, hdp⟩
      | cons x xs =>
          rcases ih₂ rfl (by simp [hs₂]) with ⟨t, e, hte, hep⟩
          exact ⟨c' :: t, e, by simp [← hs₂, hte], hep⟩

theorem lastP_plus_cls {p : Char → Bool} : LastP p (plusRe (.cls p)) := by
  intro s h
  rcases rmatch_cat_iff.mp h with ⟨s₁, s₂, rfl, h₁, h₂⟩
  rcases rmatch_cls_iff.mp h₁ with ⟨c, rfl, hc⟩
  by_cases hs : s₂ = []
  · subst hs
    exact ⟨[], c, rfl, hc⟩
  · rcases star_cls_last h₂ rfl hs with ⟨t, d, rfl, hd⟩
    exact ⟨[c] ++ t, d, by simp, hd⟩

/-- A jira-branch match starts with one of the five keyword initials, in
particular not with whitespace. -/
theorem jiraBranchRe_first : FirstP (fun c => !(c == ' ')) jiraBranchRe := by
  apply firstP_cat
  apply firstP_alt (firstP_litRe (by decide))
  apply firstP_alt (firstP_litRe (by decide))
  apply firstP_alt (firstP_litRe (by decide))
  exact firstP_alt (firstP_litRe (by decide)) (firstP_litRe (by decide))

/-- A jira-branch match ends with a character of the class `[a-z0-9-]`. -/
theorem jiraBranchRe_last : LastP lowHyCls jiraBranchRe := by
  apply lastP_cat
  apply lastP_cat
  apply lastP_cat
  apply lastP_cat
  apply lastP_cat
  apply lastP_cat
  exact lastP_plus_cls

/-- A jira-commit match starts with the literal `[`. -/
theorem jiraCommitRe_first : FirstP (fun c => !(c == ' ')) jiraCommitRe := by
  apply firstP_cat
  apply firstP_cls
  intro c hc
  simp only [chCls, beq_iff_eq] at hc
  subst hc
  decide

theorem append_singleton_inj {l t : List Char} {a c : Char}
    (h : l ++ [a] = t ++ [c]) : a = c := by
  have h' := congrArg List.getLast? h
  simp only [List.getLast?_concat] at h'
  exact Option.some.inj h'

/-- No string with a leading space matches the jira branch pattern. -/
theorem jiraBranch_no_leading_space (s : String) :
    reTest jiraBranchRe (" " ++ s) = false := by
  by_contra h
  rw [Bool.not_eq_false] at h
  have hm := reTest_iff.mp h
  rw [String.data_append, show (" " : String).data = [' '] from rfl] at hm
  rcases jiraBranchRe_first _ hm with ⟨c, t, hct, hc⟩
  rw [List.singleton_append] at hct
  injection hct with hc₁ _
  subst hc₁
  simp at hc

/-- No string with a trailing space matches the jira branch pattern. -/
theorem jiraBranch_no_trailing_space (s : String) :
    reTest jiraBranchRe (s ++ " ") = false := by
  by_contra h
  rw [Bool.not_eq_false] at h
  have hm := reTest_iff.mp h
  rw [String.data_append, show (" " : String).data = [' '] from rfl] at hm
  rcases jiraBranchRe_last _ hm with ⟨t, c, hct, hc⟩
  have hc' := append_singleton_inj hct
  subst hc'
  simp [lowHyCls] at hc

/-- No string with a leading space matches the jira commit pattern. -/
theorem jiraCommit_no_leading_space (s : String) :
    reTest jiraCommitRe (" " ++ s) = false := by
  by_contra h
  rw [Bool.not_eq_false] at h
  have hm := reTest_iff.mp h
  rw [String.data_append, show (" " : String).data = [' '] from rfl] at hm
  rcases jiraCommitRe_first _ hm with ⟨c, t, hct, hc⟩
  rw [List.singleton_append] at hct
  injection hct with hc₁ _
  subst hc₁
  simp at hc

/-! Helper lemmas shared by the claim theorems. -/
theorem infix_append_right {α : Type} {n a b : List α} (h : n <:+: a) :
    n <:+: a ++ b := by
  rcases h with ⟨s, t, hst⟩
  exact ⟨s, t ++ b, by rw [← hst]; simp⟩

theorem includes_append_left {a b n : String} (h : includes a n = true) :
    includes (a ++ b) n = true := by
  simp only [includes, decide_eq_true_eq, String.data_append] at h ⊢
  exact infix_append_right h

theorem sig_in_preCommitContent (config : Config) :
    includes (preCommitContent config) extensionSignature = true := by
  unfold preCommitContent
  apply includes_append_left
  decide

theorem sig_in_commitMsgContent (config : Config) :
    includes (commitMsgContent config) extensionSignature = true := by
  unfold commitMsgContent
  apply includes_append_left
  decide

theorem sig_in_prePushContent (config : Config) :
    includes (prePushContent config) extensionSignature = true := by
  unfold prePushContent
  apply includes_append_left
  decide

theorem sig_in_postCheckoutContent (config : Config) :
    includes (postCheckoutContent config) extensionSignature = true := by
  unfold postCheckoutContent
  apply includes_append_left
  decide

theorem removeGitHooks_apply (fs : HookFS) (k : HookKind) :
    removeGitHooks fs k =
      match fs k with
      | none => none
      | some content =>
          if includes content extensionSignature then none
          else some content := rfl

theorem hooksInstalled_apply (fs : HookFS) :
    hooksInstalled fs =
      match fs HookKind.preCommit with
      | some content => includes content extensionSignature
      | none => false := rfl

theorem validateBranchName_jira (compile : String → Option (String → Bool))
    (config : Config) (s : String) :
    validateBranchName compile config s "jira" =
      ⟨reTest jiraBranchRe s, false⟩ := by
  unfold validateBranchName
  rw [if_neg (by simp)]
  rfl

theorem validateCommitMessage_jira (compile : String → Option (String → Bool))
    (config : Config) (s : String) :
    validateCommitMessage compile config s "jira" =
      ⟨reTest jiraCommitRe s, false⟩ := by
  unfold validateCommitMessage
  rw [if_neg (by simp)]
  rfl

theorem lookup_singleton_ne {β : Type} {a k : String} {v : β} (h : a ≠ k) :
    List.lookup a [(k, v)] = none := by
  have hb : (a == k) = false := beq_eq_false_iff_ne.mpr h
  simp [List.lookup, hb]

/-- Claim C1: the hook-script synthesizer is claimed to embed the chosen
pattern and examples as shell-safe literals, so that text containing a
string-terminating character sequence is still treated as opaque data.
The code refutes this: `generateBranchValidationScript` interpolates a
custom pattern verbatim into the double-quoted assignment
`local pattern="..."`, and for a pattern containing a double quote the
shell scanner recovers only the prefix before the quote as literal
content, leaving the injected command text (`; touch pwned; ...`) outside
any quotes, where the shell executes it when the hook runs.  The jira
pattern itself happens to be quote-free, which is why the hole needs a
custom pattern to exhibit. -/
theorem claim_C1_custom_pattern_injection :
    chosenBranchPattern injCfg = injCfg.customBranchPattern ∧
    includes (generateBranchValidationScript injCfg)
      ("local pattern=\"" ++ injCfg.customBranchPattern ++ "\"") = true ∧
    shellDQSafe injCfg.customBranchPattern = false ∧
    dqScan (injCfg.customBranchPattern.data ++ ['"']) =
      some ("x".data, ("; touch pwned; echo \"\"" : String).data) ∧
    shellDQSafe jiraBranchPatternStr = true := by
  exact ⟨by decide, by decide, by decide, by decide, by decide⟩

/-- Claim C2 counterexample: the claim says leading or trailing whitespace
always causes a mismatch for both subject kinds, but a valid jira commit
message with a trailing space still validates, because the description
wildcard `.` of `.\x7b1,80\x7d$` matches the space. -/
theorem claim_C2_counterexample :
    (validateCommitMessage (fun _ => none) defaultConfig
        "[APC-2356] feat(auth): Add Login Functionality " "jira").ok =
      true := by
  decide

/-- Claim C2 (amended): in-process validation under the built-in jira
convention is the pure anchored regex match of the full subject string
with no implicit trimming; leading whitespace never validates (branch and
commit) and trailing whitespace never validates a branch name, but a
commit message with trailing whitespace can still validate since the
description wildcard matches it. -/
theorem claim_C2_amended (compile : String → Option (String → Bool))
    (config : Config) (s : String) :
    (validateBranchName compile config s "jira").ok =
      reTest jiraBranchRe s ∧
    (validateCommitMessage compile config s "jira").ok =
      reTest jiraCommitRe s ∧
    (validateBranchName compile config (" " ++ s) "jira").ok = false ∧
    (validateBranchName compile config (s ++ " ") "jira").ok = false ∧
    (validateCommitMessage compile config (" " ++ s) "jira").ok = false := by
  refine ⟨?_, ?_, ?_, ?_, ?_⟩
  · rw [validateBranchName_jira]
  · rw [validateCommitMessage_jira]
  · rw [validateBranchName_jira]
    exact jiraBranch_no_leading_space s
  · rw [validateBranchName_jira]
    exact jiraBranch_no_trailing_space s
  · rw [validateCommitMessage_jira]
    exact jiraCommit_no_leading_space s

/-- Claim C3 counterexample: resolution of an unknown convention id is
claimed to behave exactly like the default convention for in-process
validation too, but `validateBranchName` returns false for every subject
under an unknown id (`BRANCH_PATTERNS` lookup fails and the code returns
false), while the default jira rule accepts this subject. -/
theorem claim_C3_counterexample :
    (validateBranchName (fun _ => none) defaultConfig
        "feature/APC-2876-user-auth" "gitflow").ok = false ∧
    (validateBranchName (fun _ => none) defaultConfig
        "feature/APC-2876-user-auth" "jira").ok = true := by
  exact ⟨by decide, by decide⟩

/-- Claim C3 (amended): for identifiers that are not Object.prototype
member names, the fallback to the default jira convention holds for the
rendered hook scripts — an unknown non-custom identifier resolves to the
jira pattern string and example list — while in-process validation does
not fall back: it returns false for every subject with no error
notification.  For identifiers that ARE Object.prototype member names
("toString", "constructor", ...), the bracket lookup finds a truthy
inherited function instead: in-process validation throws a TypeError and
the renderer throws before producing any script, so such an unrecognized
configuration value does block validation. -/
theorem claim_C3_amended (compile : String → Option (String → Bool))
    (config : Config) (s : String)
    (hbc : config.branchPattern ≠ "custom")
    (hbj : config.branchPattern ≠ "jira") :
    (config.branchPattern ∉ objectPrototypeKeys →
      chosenBranchPattern config = jiraBranchPatternStr ∧
      chosenBranchExamples config = jiraBranchExamples ∧
      chosenBranchPatternJs config = some jiraBranchPatternStr ∧
      chosenBranchExamplesJs config = some jiraBranchExamples ∧
      generateBranchValidationScriptJs config =
        some (generateBranchValidationScript config) ∧
      validateBranchName compile config s config.branchPattern =
        ⟨false, false⟩ ∧
      validateBranchNameJs compile config s config.branchPattern =
        some ⟨false, false⟩) ∧
    (config.branchPattern ∈ objectPrototypeKeys →
      validateBranchNameJs compile config s config.branchPattern = none ∧
      chosenBranchPatternJs config = none ∧
      chosenBranchExamplesJs config = none ∧
      generateBranchValidationScriptJs config = none) := by
  have hcp : chosenBranchPattern config = jiraBranchPatternStr := by
    unfold chosenBranchPattern
    rw [if_neg (fun h => hbc h.1)]
    unfold branchScriptPatterns
    rw [lookup_singleton_ne hbj]
    rfl
  have hce : chosenBranchExamples config = jiraBranchExamples := by
    unfold chosenBranchExamples
    rw [if_neg hbc, lookup_singleton_ne hbj]
    rfl
  constructor
  · intro hnp
    have hpj : chosenBranchPatternJs config = some jiraBranchPatternStr := by
      unfold chosenBranchPatternJs
      rw [if_neg (fun h => hbc h.1)]
      unfold branchScriptPatterns
      rw [lookup_singleton_ne hbj]
      show (if config.branchPattern ∈ objectPrototypeKeys then none
            else some jiraBranchPatternStr) = some jiraBranchPatternStr
      rw [if_neg hnp]
    have hej : chosenBranchExamplesJs config = some jiraBranchExamples := by
      unfold chosenBranchExamplesJs
      rw [if_neg hbc, lookup_singleton_ne hbj]
      show (if config.branchPattern ∈ objectPrototypeKeys then none
            else some jiraBranchExamples) = some jiraBranchExamples
      rw [if_neg hnp]
    refine ⟨hcp, hce, hpj, hej, ?_, ?_, ?_⟩
    · unfold generateBranchValidationScriptJs
      rw [hpj, hej]
    · unfold validateBranchName
      rw [if_neg (fun h => hbc h.1)]
      unfold BRANCH_PATTERNS
      rw [lookup_singleton_ne hbj]
    · unfold validateBranchNameJs
      rw [if_neg (fun h => hbc h.1)]
      unfold BRANCH_PATTERNS
      rw [lookup_singleton_ne hbj]
      show (if config.branchPattern ∈ objectPrototypeKeys then none
            else some (⟨false, false⟩ : VResult)) = some ⟨false, false⟩
      rw [if_neg hnp]
  · intro hp
    have hpj : chosenBranchPatternJs config = none := by
      unfold chosenBranchPatternJs
      rw [if_neg (fun h => hbc h.1)]
      unfold branchScriptPatterns
      rw [lookup_singleton_ne hbj]
      show (if config.branchPattern ∈ objectPrototypeKeys then none
            else some jiraBranchPatternStr) = none
      rw [if_pos hp]
    have hej : chosenBranchExamplesJs config = none := by
      unfold chosenBranchExamplesJs
      rw [if_neg hbc, lookup_singleton_ne hbj]
      show (if config.branchPattern ∈ objectPrototypeKeys then none
            else some jiraBranchExamples) = none
      rw [if_pos hp]
    refine ⟨?_, hpj, hej, ?_⟩
    · unfold validateBranchNameJs
      rw [if_neg (fun h => hbc h.1)]
      unfold BRANCH_PATTERNS
      rw [lookup_singleton_ne hbj]
      show (if config.branchPattern ∈ objectPrototypeKeys then none
            else some (⟨false, false⟩ : VResult)) = none
      rw [if_pos hp]
    · unfold generateBranchValidationScriptJs
      rw [hpj, hej]

/-- Witness for the amended claim C3 at the concrete ids "gitflow" (plain
unknown) and "toString" (Object.prototype member). -/
theorem claim_C3_amended_witness :
    (chosenBranchPattern gitflowCfg = jiraBranchPatternStr ∧
     chosenBranchExamples gitflowCfg = jiraBranchExamples ∧
     chosenBranchPatternJs gitflowCfg = some jiraBranchPatternStr ∧
     chosenBranchExamplesJs gitflowCfg = some jiraBranchExamples ∧
     generateBranchValidationScriptJs gitflowCfg =
       some (generateBranchValidationScript gitflowCfg) ∧
     validateBranchName (fun _ => none) gitflowCfg
       "feature/APC-2876-user-auth" gitflowCfg.branchPattern =
         ⟨false, false⟩ ∧
     validateBranchNameJs (fun _ => none) gitflowCfg
       "feature/APC-2876-user-auth" gitflowCfg.branchPattern =
         some ⟨false, false⟩) ∧
    (validateBranchNameJs (fun _ => none) toStringCfg
       "feature/APC-2876-user-auth" toStringCfg.branchPattern = none ∧
     chosenBranchPatternJs toStringCfg = none ∧
     chosenBranchExamplesJs toStringCfg = none ∧
     generateBranchValidationScriptJs toStringCfg = none) := by
  have h1 := claim_C3_amended (fun _ => none) gitflowCfg
    "feature/APC-2876-user-auth" (by decide) (by decide)
  have h2 := claim_C3_amended (fun _ => none) toStringCfg
    "feature/APC-2876-user-auth" (by decide) (by decide)
  exact ⟨h1.1 (by decide), h2.2 (by decide)⟩

/-- Claim C4 counterexample: with convention "custom" and an EMPTY custom
pattern, no ConfigurationError is reported — in-process validation
silently returns the same ⟨false, false⟩ as an ordinary mismatch (no
`showErrorMessage` call), and the hook renderer silently falls back to the
default jira pattern, contradicting "reported to the human ... never
silently defaulted". -/
theorem claim_C4_counterexample :
    validateBranchName (fun _ => none) emptyCustomCfg
      "feature/APC-2876-user-auth" "custom" =
        ⟨false, false⟩ ∧
    chosenBranchPattern emptyCustomCfg = jiraBranchPatternStr := by
  exact ⟨by decide, by decide⟩

/-- Claim C4 (amended): only a NONEMPTY custom pattern that fails to
compile is reported as a ConfigurationError — `showErrorMessage` fires and
the ⟨false, true⟩ outcome is distinguishable from the plain ⟨false, false⟩
mismatch — for both branch and commit validation; an empty custom pattern
is silently mapped to ⟨false, false⟩ in-process, and the hook renderer
silently falls back to the default jira pattern. -/
theorem claim_C4_amended (compile : String → Option (String → Bool))
    (config : Config) (s : String)
    (hb : config.branchPattern = "custom") :
    (config.customBranchPattern ≠ "" →
      compile config.customBranchPattern = none →
      validateBranchName compile config s "custom" = ⟨false, true⟩) ∧
    (config.customBranchPattern = "" →
      validateBranchName compile config s "custom" = ⟨false, false⟩ ∧
      chosenBranchPattern config = jiraBranchPatternStr) ∧
    (config.customCommitPattern ≠ "" →
      compile config.customCommitPattern = none →
      validateCommitMessage compile config s "custom" = ⟨false, true⟩) := by
  refine ⟨?_, ?_, ?_⟩
  · intro hne hcomp
    unfold validateBranchName
    rw [if_pos ⟨rfl, hne⟩, hcomp]
  · intro hempty
    constructor
    · unfold validateBranchName
      rw [if_neg (fun h => h.2 hempty)]
      unfold BRANCH_PATTERNS
      rw [lookup_singleton_ne (by decide)]
    · unfold chosenBranchPattern
      rw [if_neg (fun h => h.2 hempty), hb]
      unfold branchScriptPatterns
      rw [lookup_singleton_ne (by decide)]
      rfl
  · intro hne hcomp
    unfold validateCommitMessage
    rw [if_pos ⟨rfl, hne⟩, hcomp]

/-- Witness for the amended claim C4 at a non-compiling custom pattern. -/
theorem claim_C4_amended_witness :
    validateBranchName (fun _ => none) badCustomCfg "feature/x" "custom" =
      ⟨false, true⟩ :=
  (claim_C4_amended (fun _ => none) badCustomCfg "feature/x" rfl).1
    (by decide) rfl

/-- Claim C5: every example string of every non-custom convention in the
two registries (which contain only "jira") satisfies the matching
rule of that convention, for both the branch and the commit example sets. -/
theorem claim_C5_examples_satisfy_rules :
    (BRANCH_PATTERNS.all fun p =>
      (getBranchExamples p.1).all fun e => reTest p.2 e) = true ∧
    (COMMIT_PATTERNS.all fun p =>
      (getCommitExamples p.1).all fun e => reTest p.2 e) = true := by
  exact ⟨by decide, by decide⟩

/-- Claim C7: for every prior state of the hook files, remove followed by
detect reports false — the pre-commit file is either deleted (it carried
the marker) or kept precisely because it lacks the marker. -/
theorem claim_C7_remove_then_detect (fs : HookFS) :
    hooksInstalled (removeGitHooks fs) = false := by
  rw [hooksInstalled_apply, removeGitHooks_apply]
  cases hfs : fs HookKind.preCommit with
  | none => rfl
  | some content =>
      by_cases hin : includes content extensionSignature = true
      · simp [hin]
      · simp [hin]

/-- Claim C8: remove deletes exactly those hook files that exist and carry
the signature marker and leaves every other file untouched; in particular,
after install, overwriting one hook file with marker-free content and then
removing leaves that file intact while the other three are deleted. -/
theorem claim_C8_remove_frame (fs : HookFS) (k : HookKind) (c : String)
    (config : Config) (s : String)
    (hs : includes s extensionSignature = false) :
    (fs k = none → removeGitHooks fs k = none) ∧
    (fs k = some c → includes c extensionSignature = true →
      removeGitHooks fs k = none) ∧
    (fs k = some c → includes c extensionSignature = false →
      removeGitHooks fs k = some c) ∧
    removeGitHooks (writeHook (installGitHooks config fs) .commitMsg s)
      .commitMsg = some s ∧
    removeGitHooks (writeHook (installGitHooks config fs) .commitMsg s)
      .preCommit = none ∧
    removeGitHooks (writeHook (installGitHooks config fs) .commitMsg s)
      .postCheckout = none ∧
    removeGitHooks (writeHook (installGitHooks config fs) .commitMsg s)
      .prePush = none := by
  refine ⟨?_, ?_, ?_, ?_, ?_, ?_, ?_⟩
  · intro h
    rw [removeGitHooks_apply, h]
  · intro h hin
    rw [removeGitHooks_apply, h]
    simp [hin]
  · intro h hin
    rw [removeGitHooks_apply, h]
    simp [hin]
  · rw [removeGitHooks_apply]
    simp [writeHook, hs]
  · rw [removeGitHooks_apply]
    simp [writeHook, installGitHooks, sig_in_preCommitContent config]
  · rw [removeGitHooks_apply]
    simp [writeHook, installGitHooks, sig_in_postCheckoutContent config]
  · rw [removeGitHooks_apply]
    simp [writeHook, installGitHooks, sig_in_prePushContent config]

/-- Witness for claim C8: a concrete run of the install / strip-one /
remove scenario on an initially empty hooks directory. -/
theorem claim_C8_remove_frame_witness :
    removeGitHooks (writeHook (installGitHooks defaultConfig emptyFS)
        .commitMsg "#!/bin/sh\nexit 0\n") .commitMsg =
      some "#!/bin/sh\nexit 0\n" ∧
    removeGitHooks (writeHook (installGitHooks defaultConfig emptyFS)
        .commitMsg "#!/bin/sh\nexit 0\n") .preCommit = none ∧
    removeGitHooks (writeHook (installGitHooks defaultConfig emptyFS)
        .commitMsg "#!/bin/sh\nexit 0\n") .postCheckout = none ∧
    removeGitHooks (writeHook (installGitHooks defaultConfig emptyFS)
        .commitMsg "#!/bin/sh\nexit 0\n") .prePush = none := by
  have h := claim_C8_remove_frame emptyFS HookKind.preCommit ""
    defaultConfig "#!/bin/sh\nexit 0\n" (by decide)
  exact ⟨h.2.2.2.1, h.2.2.2.2.1, h.2.2.2.2.2.1, h.2.2.2.2.2.2⟩

/-- Helper: every configuration that resolves to the built-in jira branch
pattern renders an assignment line that parses as the single intended
command — the jira pattern contains no quote or semicolon. -/
theorem jiraLine_parses (config : Config)
    (h : chosenBranchPattern config = jiraBranchPatternStr) :
    shellLineCommands (patternAssignmentLine config) =
      some [patternAssignmentLine config] := by
  unfold patternAssignmentLine
  rw [h]
  decide

/-- Claim C10: deactivating the extension removes the installed hooks
without any explicit remove command — the status-bar item is disposed and
every open workspace folder is passed through the same `removeGitHooks`
operation, which deletes each hook file carrying the signature marker and
preserves every file lacking it. -/
theorem claim_C10_deactivate_removes_hooks (st : ExtensionState)
    (fs : HookFS) (k : HookKind) (c : String)
    (hmem : fs ∈ st.workspaceFolders) :
    (deactivate st).statusBarItem = none ∧
    removeGitHooks fs ∈ (deactivate st).workspaceFolders ∧
    (fs k = some c → includes c extensionSignature = true →
      removeGitHooks fs k = none) ∧
    (fs k = some c → includes c extensionSignature = false →
      removeGitHooks fs k = some c) := by
  refine ⟨rfl, ?_, ?_, ?_⟩
  · exact List.mem_map_of_mem removeGitHooks hmem
  · intro h hin
    rw [removeGitHooks_apply, h]
    simp [hin]
  · intro h hin
    rw [removeGitHooks_apply, h]
    simp [hin]

/-- Witness for claim C10: deactivation of a single-folder workspace with
freshly installed hooks deletes the (marked) pre-commit hook. -/
theorem claim_C10_witness :
    (deactivate ⟨some (), [installGitHooks defaultConfig emptyFS]⟩).statusBarItem = none ∧
    removeGitHooks (installGitHooks defaultConfig emptyFS) ∈
      (deactivate ⟨some (),
        [installGitHooks defaultConfig emptyFS]⟩).workspaceFolders ∧
    removeGitHooks (installGitHooks defaultConfig emptyFS)
      HookKind.preCommit = none := by
  have h := claim_C10_deactivate_removes_hooks
    ⟨some (), [installGitHooks defaultConfig emptyFS]⟩
    (installGitHooks defaultConfig emptyFS) HookKind.preCommit
    (preCommitContent defaultConfig) (by simp)
  exact ⟨h.1, h.2.1, h.2.2.1 rfl (sig_in_preCommitContent _)⟩

end ValidateBranch
